import Mathlib

/-!
Verification of the WebRTC voice-signaling subsystem of the hangman-frontend
repository: the server registry and router (server/voice-signaling.js), the
client call state machine (hooks/use-voice.ts variants) and the reconnect
configuration (lib/voice-config.ts), embedded shallowly.

JS `Map` objects are embedded as association lists with `Map` semantics:
`set` replaces the first matching key in place (otherwise appends), `get`
returns the first match, `delete` removes the first match, and `size` is the
length of the list (keys are unique whenever every entry was inserted via
`set`, which the well-formedness invariant records).
-/

namespace Voice

/-- JS `Map.prototype.get`. -/
def mapGet {β : Type} (m : List (String × β)) (k : String) : Option β :=
  match m with
  | [] => none
  | (k', v) :: rest => if k' = k then some v else mapGet rest k

/-- JS `Map.prototype.set`: replace the first entry with key `k` in place,
otherwise append the new entry at the end. -/
def mapSet {β : Type} (m : List (String × β)) (k : String) (v : β) :
    List (String × β) :=
  match m with
  | [] => [(k, v)]
  | (k', v') :: rest =>
      if k' = k then (k, v) :: rest else (k', v') :: mapSet rest k v

/-- JS `Map.prototype.delete`: remove the first entry with key `k`. -/
def mapDelete {β : Type} (m : List (String × β)) (k : String) :
    List (String × β) :=
  match m with
  | [] => []
  | (k', v') :: rest =>
      if k' = k then rest else (k', v') :: mapDelete rest k

theorem mapGet_nil {β : Type} (k : String) : mapGet ([] : List (String × β)) k = none := rfl

theorem mapGet_cons {β : Type} (k' k : String) (v : β) (rest : List (String × β)) :
    mapGet ((k', v) :: rest) k = if k' = k then some v else mapGet rest k := rfl

theorem mapSet_nil {β : Type} (k : String) (v : β) :
    mapSet ([] : List (String × β)) k v = [(k, v)] := rfl

theorem mapSet_cons {β : Type} (k' k : String) (v' v : β) (rest : List (String × β)) :
    mapSet ((k', v') :: rest) k v =
      if k' = k then (k, v) :: rest else (k', v') :: mapSet rest k v := rfl

theorem mapDelete_nil {β : Type} (k : String) :
    mapDelete ([] : List (String × β)) k = [] := rfl

theorem mapDelete_cons {β : Type} (k' k : String) (v' : β) (rest : List (String × β)) :
    mapDelete ((k', v') :: rest) k =
      if k' = k then rest else (k', v') :: mapDelete rest k := rfl

theorem mapGet_mapSet_self {β : Type} (m : List (String × β)) (k : String) (v : β) :
    mapGet (mapSet m k v) k = some v := by
  induction m with
  | nil => simp [mapSet_nil, mapGet_cons, mapGet_nil]
  | cons hd tl ih =>
      obtain ⟨k', v'⟩ := hd
      by_cases h : k' = k
      · rw [mapSet_cons, if_pos h, mapGet_cons, if_pos rfl]
      · rw [mapSet_cons, if_neg h, mapGet_cons, if_neg h, ih]

theorem mapGet_mapSet_ne {β : Type} (m : List (String × β)) (k k' : String) (v : β)
    (h : k' ≠ k) : mapGet (mapSet m k v) k' = mapGet m k' := by
  induction m with
  | nil => rw [mapSet_nil, mapGet_cons, mapGet_nil, if_neg (Ne.symm h)]
  | cons hd tl ih =>
      obtain ⟨k₀, v₀⟩ := hd
      by_cases hk : k₀ = k
      · rw [mapSet_cons, if_pos hk, mapGet_cons, mapGet_cons,
          if_neg (Ne.symm h), if_neg (hk ▸ (fun hc => h hc.symm))]
      · rw [mapSet_cons, if_neg hk, mapGet_cons, mapGet_cons]
        by_cases hk' : k₀ = k'
        · rw [if_pos hk', if_pos hk']
        · rw [if_neg hk', if_neg hk', ih]

theorem mem_of_mapGet {β : Type} {m : List (String × β)} {k : String} {v : β}
    (h : mapGet m k = some v) : (k, v) ∈ m := by
  induction m with
  | nil => simp [mapGet_nil] at h
  | cons hd tl ih =>
      obtain ⟨k', v'⟩ := hd
      rw [mapGet_cons] at h
      by_cases hk : k' = k
      · rw [if_pos hk] at h
        subst hk
        simp at h
        simp [h]
      · rw [if_neg hk] at h
        exact List.mem_cons_of_mem _ (ih h)

theorem mapGet_eq_none_of_notMem {β : Type} {m : List (String × β)} {k : String}
    (h : k ∉ m.map Prod.fst) : mapGet m k = none := by
  induction m with
  | nil => rfl
  | cons hd tl ih =>
      obtain ⟨k', v'⟩ := hd
      simp only [List.map_cons, List.mem_cons, not_or] at h
      rw [mapGet_cons, if_neg (Ne.symm h.1)]
      exact ih h.2

theorem mem_keys_of_mapGet_isSome {β : Type} {m : List (String × β)} {k : String}
    (h : (mapGet m k).isSome) : k ∈ m.map Prod.fst := by
  by_contra hk
  rw [mapGet_eq_none_of_notMem hk] at h
  simp at h

theorem mapSet_length_mem {β : Type} {m : List (String × β)} {k : String} (v : β)
    (h : k ∈ m.map Prod.fst) : (mapSet m k v).length = m.length := by
  induction m with
  | nil => simp at h
  | cons hd tl ih =>
      obtain ⟨k', v'⟩ := hd
      by_cases hk : k' = k
      · rw [mapSet_cons, if_pos hk]
        simp
      · have h' : k ∈ tl.map Prod.fst := by
          simp only [List.map_cons, List.mem_cons] at h
          rcases h with h | h
          · exact absurd h.symm hk
          · exact h
        rw [mapSet_cons, if_neg hk]
        simp [ih h']

theorem mapSet_length_notMem {β : Type} {m : List (String × β)} {k : String} (v : β)
    (h : k ∉ m.map Prod.fst) : (mapSet m k v).length = m.length + 1 := by
  induction m with
  | nil => simp [mapSet_nil]
  | cons hd tl ih =>
      obtain ⟨k', v'⟩ := hd
      simp only [List.map_cons, List.mem_cons, not_or] at h
      rw [mapSet_cons, if_neg (fun hc => h.1 hc.symm)]
      simp [ih h.2]

theorem mem_of_mem_mapSet {β : Type} {m : List (String × β)} {k : String} {v : β}
    {p : String × β} (h : p ∈ mapSet m k v) : p ∈ m ∨ p = (k, v) := by
  induction m with
  | nil =>
      rw [mapSet_nil] at h
      simp at h
      exact Or.inr h
  | cons hd tl ih =>
      obtain ⟨k', v'⟩ := hd
      by_cases hk : k' = k
      · rw [mapSet_cons, if_pos hk] at h
        rcases List.mem_cons.mp h with h' | h'
        · exact Or.inr h'
        · exact Or.inl (List.mem_cons_of_mem _ h')
      · rw [mapSet_cons, if_neg hk] at h
        rcases List.mem_cons.mp h with h' | h'
        · exact Or.inl (h' ▸ List.mem_cons_self _ _)
        · rcases ih h' with h'' | h''
          · exact Or.inl (List.mem_cons_of_mem _ h'')
          · exact Or.inr h''

theorem keys_mapSet_sub {β : Type} {m : List (String × β)} {k a : String} {v : β}
    (h : a ∈ (mapSet m k v).map Prod.fst) : a ∈ m.map Prod.fst ∨ a = k := by
  rcases List.mem_map.mp h with ⟨p, hp, hpa⟩
  rcases mem_of_mem_mapSet hp with h' | h'
  · exact Or.inl (List.mem_map.mpr ⟨p, h', hpa⟩)
  · subst h'
    exact Or.inr hpa.symm

theorem nodup_keys_mapSet {β : Type} {m : List (String × β)} {k : String} {v : β}
    (h : (m.map Prod.fst).Nodup) : ((mapSet m k v).map Prod.fst).Nodup := by
  induction m with
  | nil => simp [mapSet_nil]
  | cons hd tl ih =>
      obtain ⟨k', v'⟩ := hd
      simp only [List.map_cons, List.nodup_cons] at h
      by_cases hk : k' = k
      · subst hk
        rw [mapSet_cons, if_pos rfl, List.map_cons, List.nodup_cons]
        exact h
      · rw [mapSet_cons, if_neg hk, List.map_cons, List.nodup_cons]
        refine ⟨?_, ih h.2⟩
        intro hmem
        rcases keys_mapSet_sub hmem with h' | h'
        · exact h.1 h'
        · exact hk h'

theorem mem_mapSet_self {β : Type} (m : List (String × β)) (k : String) (v : β) :
    (k, v) ∈ mapSet m k v :=
  mem_of_mapGet (mapGet_mapSet_self m k v)

theorem mem_mapSet_of_ne {β : Type} {m : List (String × β)} {k : String} {v : β}
    {p : String × β} (hp : p ∈ m) (hne : p.1 ≠ k) : p ∈ mapSet m k v := by
  induction m with
  | nil => simp at hp
  | cons hd tl ih =>
      obtain ⟨k', v'⟩ := hd
      by_cases hk : k' = k
      · rw [mapSet_cons, if_pos hk]
        rcases List.mem_cons.mp hp with h' | h'
        · exact absurd (by rw [h']; exact hk) hne
        · exact List.mem_cons_of_mem _ h'
      · rw [mapSet_cons, if_neg hk]
        rcases List.mem_cons.mp hp with h' | h'
        · exact h' ▸ List.mem_cons_self _ _
        · exact List.mem_cons_of_mem _ (ih h')

theorem mem_of_mem_mapDelete {β : Type} {m : List (String × β)} {k : String}
    {p : String × β} (h : p ∈ mapDelete m k) : p ∈ m := by
  induction m with
  | nil => rw [mapDelete_nil] at h; exact absurd h (List.not_mem_nil p)
  | cons hd tl ih =>
      obtain ⟨k', v'⟩ := hd
      by_cases hk : k' = k
      · rw [mapDelete_cons, if_pos hk] at h
        exact List.mem_cons_of_mem _ h
      · rw [mapDelete_cons, if_neg hk] at h
        rcases List.mem_cons.mp h with h' | h'
        · exact h' ▸ List.mem_cons_self _ _
        · exact List.mem_cons_of_mem _ (ih h')

theorem keys_mapDelete_sublist {β : Type} (m : List (String × β)) (k : String) :
    List.Sublist ((mapDelete m k).map Prod.fst) (m.map Prod.fst) := by
  induction m with
  | nil => rw [mapDelete_nil]
  | cons hd tl ih =>
      obtain ⟨k', v'⟩ := hd
      by_cases hk : k' = k
      · rw [mapDelete_cons, if_pos hk, List.map_cons]
        exact List.sublist_cons_of_sublist _ (List.Sublist.refl _)
      · rw [mapDelete_cons, if_neg hk, List.map_cons, List.map_cons]
        exact List.Sublist.cons₂ _ ih

theorem nodup_keys_mapDelete {β : Type} {m : List (String × β)} {k : String}
    (h : (m.map Prod.fst).Nodup) : ((mapDelete m k).map Prod.fst).Nodup :=
  (keys_mapDelete_sublist m k).nodup h

theorem mapGet_mapDelete_self {β : Type} {m : List (String × β)} {k : String}
    (h : (m.map Prod.fst).Nodup) : mapGet (mapDelete m k) k = none := by
  induction m with
  | nil => rfl
  | cons hd tl ih =>
      obtain ⟨k', v'⟩ := hd
      simp only [List.map_cons, List.nodup_cons] at h
      by_cases hk : k' = k
      · rw [mapDelete_cons, if_pos hk]
        exact mapGet_eq_none_of_notMem (hk ▸ h.1)
      · rw [mapDelete_cons, if_neg hk, mapGet_cons, if_neg hk]
        exact ih h.2

theorem two_mem_le_length {α : Type} {l : List α} {a b : α}
    (ha : a ∈ l) (hb : b ∈ l) (hab : a ≠ b) : 2 ≤ l.length := by
  induction l with
  | nil => simp at ha
  | cons hd tl ih =>
      rcases List.mem_cons.mp ha with ha' | ha' <;>
        rcases List.mem_cons.mp hb with hb' | hb'
      · exact absurd (ha'.trans hb'.symm) hab
      · have := List.length_pos.mpr (List.ne_nil_of_mem hb')
        simp only [List.length_cons]
        omega
      · have := List.length_pos.mpr (List.ne_nil_of_mem ha')
        simp only [List.length_cons]
        omega
      · have h2 := ih ha' hb'
        simp only [List.length_cons]
        omega

/-! ## Server embedding (server/voice-signaling.js)

A WebSocket handle is a numeric identifier plus an `isOpen` flag standing for
`readyState === WebSocket.OPEN` at the time the registry inspects it.
`Participant` mirrors the `{ ws, userId, joinedAt }` records stored in the
`rooms` map; `joinedAt` is an abstract tick. JS string truthiness (`!x` true
for `null`/`undefined`/`""`) is modelled by `truthy` on `Option String`.
-/

/-- A WebSocket transport handle: its identity and whether it is open. -/
structure WsHandle where
  hid : Nat
  isOpen : Bool
  deriving DecidableEq

/-- A server-side room entry: `{ ws, userId, joinedAt }`. -/
structure Participant where
  ws : WsHandle
  userId : String
  joinedAt : Nat
  deriving DecidableEq

/-- One room: the inner JS `Map` from userId to Participant. -/
abbrev Room := List (String × Participant)

/-- The server's global `rooms` map. -/
abbrev Rooms := List (String × Room)

/-- An inbound signaling frame after `JSON.parse`: the `type` tag and the
fields the server reads. Payload fields (`offer`, `answer`, `candidate`) are
opaque strings the server never inspects. -/
structure MsgData where
  type : String
  roomId : Option String
  userId : Option String
  targetUserId : Option String
  payload : Option String
  deriving DecidableEq

/-- JS truthiness of an optional string: `null`/`undefined`/`""` are falsy. -/
def truthy : Option String → Bool
  | none => false
  | some s => s != ""

/-- Messages the server writes to a socket. `forward` is the spread
`{ ...data, fromUserId }` used for offer/answer/ice-candidate relay. -/
inductive OutMsg where
  | error (message : String)
  | joined (roomId userId : String) (roomSize : Nat)
  | userJoined (userId : String) (roomSize : Nat)
  | userLeft (userId : String) (roomSize : Nat)
  | forward (data : MsgData) (fromUserId : Option String)
  deriving DecidableEq

/-- Observable transport effects of a handler: a `ws.send` to a handle, or a
`ws.close`. The source's message handlers only ever send. -/
inductive Eff where
  | send (dest : Nat) (msg : OutMsg)
  | close (dest : Nat)
  deriving DecidableEq

/-- Per-connection closure state of the `wss.on('connection')` callback:
the connection's own handle id and the `currentRoom` / `userId` variables
(both `null` until a successful join). -/
structure ConnState where
  handle : Nat
  currentRoom : Option String
  userId : Option String
  deriving DecidableEq

/-- The sends produced by the `room.forEach` loop of `broadcastToRoom`:
skip the excluded userId and any non-open handle, send to everyone else. -/
def broadcastSends (room : Room) (msg : OutMsg) (excludeUserId : Option String) :
    List Eff :=
  match room with
  | [] => []
  | (uid, user) :: rest =>
      if (some uid != excludeUserId) && user.ws.isOpen then
        Eff.send user.ws.hid msg :: broadcastSends rest msg excludeUserId
      else
        broadcastSends rest msg excludeUserId

/-- `broadcastToRoom(roomId, message, excludeUserId)`: look the room up and
send to every other open participant. It reads the registry and mutates
nothing, which the returned `Rooms` component records. -/
def broadcastToRoom (rooms : Rooms) (roomId : String) (msg : OutMsg)
    (excludeUserId : Option String) : Rooms × List Eff :=
  match mapGet rooms roomId with
  | none => (rooms, [])
  | some room => (rooms, broadcastSends room msg excludeUserId)

/-- The lazy room creation of `handleJoinRoom`: `rooms.set(roomId, new Map())`
when the room does not exist yet. -/
def ensureRoom (rooms : Rooms) (r : String) : Rooms :=
  if (mapGet rooms r).isNone then mapSet rooms r [] else rooms

/-- The room's contents after `room.set(userId, { ws, userId, joinedAt })`,
starting from the (lazily created) current room. -/
def joinedRoom (conn : ConnState) (rooms : Rooms) (r u : String) (now : Nat) :
    Room :=
  mapSet ((mapGet (ensureRoom rooms r) r).getD []) u ⟨⟨conn.handle, true⟩, u, now⟩

/-- `handleJoinRoom(ws, data)`: validate `roomId`/`userId`, create the room
lazily, insert (possibly replacing) the participant, reply `joined` with the
new size and broadcast `user-joined` with that same size to the others. The
source's intermediate mutable state is named by `ensureRoom`/`joinedRoom`. -/
def handleJoinRoom (conn : ConnState) (rooms : Rooms) (d : MsgData)
    (now : Nat) : ConnState × Rooms × List Eff :=
  if !(truthy d.roomId && truthy d.userId) then
    (conn, rooms, [Eff.send conn.handle (OutMsg.error "Room ID and User ID required")])
  else
    ({ conn with currentRoom := some (d.roomId.getD ""),
                 userId := some (d.userId.getD "") },
     (broadcastToRoom
        (mapSet (ensureRoom rooms (d.roomId.getD "")) (d.roomId.getD "")
          (joinedRoom conn rooms (d.roomId.getD "") (d.userId.getD "") now))
        (d.roomId.getD "")
        (OutMsg.userJoined (d.userId.getD "")
          (joinedRoom conn rooms (d.roomId.getD "") (d.userId.getD "") now).length)
        (some (d.userId.getD ""))).1,
     Eff.send conn.handle
       (OutMsg.joined (d.roomId.getD "") (d.userId.getD "")
         (joinedRoom conn rooms (d.roomId.getD "") (d.userId.getD "") now).length) ::
       (broadcastToRoom
          (mapSet (ensureRoom rooms (d.roomId.getD "")) (d.roomId.getD "")
            (joinedRoom conn rooms (d.roomId.getD "") (d.userId.getD "") now))
          (d.roomId.getD "")
          (OutMsg.userJoined (d.userId.getD "")
            (joinedRoom conn rooms (d.roomId.getD "") (d.userId.getD "") now).length)
          (some (d.userId.getD ""))).2)

/-- `handleSignalingMessage(ws, data)` for offer/answer/ice-candidate:
require a `roomId` naming an existing room; with a truthy `targetUserId`
send `{ ...data, fromUserId }` to that participant alone (and only if its
handle is open), otherwise broadcast it to everyone but the sender's
`userId` closure variable. -/
def handleSignalingMessage (conn : ConnState) (rooms : Rooms) (d : MsgData) :
    ConnState × Rooms × List Eff :=
  if !(truthy d.roomId) then
    (conn, rooms, [Eff.send conn.handle (OutMsg.error "Room ID required")])
  else
    match mapGet rooms (d.roomId.getD "") with
    | none => (conn, rooms, [Eff.send conn.handle (OutMsg.error "Room not found")])
    | some room =>
        if truthy d.targetUserId then
          match mapGet room (d.targetUserId.getD "") with
          | some target =>
              if target.ws.isOpen then
                (conn, rooms, [Eff.send target.ws.hid (OutMsg.forward d conn.userId)])
              else
                (conn, rooms, [])
          | none => (conn, rooms, [])
        else
          (conn, broadcastToRoom rooms (d.roomId.getD "")
            (OutMsg.forward d conn.userId) conn.userId)

/-- The joined branch of `handleLeaveRoom`: delete the participant,
broadcast `user-left` with the post-delete size, and delete the room when it
became empty. -/
def leaveFromRoom (conn : ConnState) (rooms : Rooms) (roomId uid : String)
    (room : Room) : ConnState × Rooms × List Eff :=
  (conn,
   (if (mapDelete room uid).length = 0 then
      mapDelete
        (broadcastToRoom (mapSet rooms roomId (mapDelete room uid)) roomId
          (OutMsg.userLeft uid (mapDelete room uid).length) (some uid)).1 roomId
    else
      (broadcastToRoom (mapSet rooms roomId (mapDelete room uid)) roomId
        (OutMsg.userLeft uid (mapDelete room uid).length) (some uid)).1),
   (broadcastToRoom (mapSet rooms roomId (mapDelete room uid)) roomId
     (OutMsg.userLeft uid (mapDelete room uid).length) (some uid)).2)

/-- `handleLeaveRoom(ws)`: a no-op unless the connection had joined and its
room still exists. The closure variables are not reset. -/
def handleLeaveRoom (conn : ConnState) (rooms : Rooms) :
    ConnState × Rooms × List Eff :=
  if truthy conn.currentRoom && truthy conn.userId then
    match mapGet rooms (conn.currentRoom.getD "") with
    | none => (conn, rooms, [])
    | some room =>
        leaveFromRoom conn rooms (conn.currentRoom.getD "") (conn.userId.getD "") room
  else
    (conn, rooms, [])

/-- The `ws.on('message')` dispatcher. `none` stands for a frame
`JSON.parse` rejects, which the catch block answers with an error reply. -/
def wsOnMessage (conn : ConnState) (rooms : Rooms) (raw : Option MsgData)
    (now : Nat) : ConnState × Rooms × List Eff :=
  match raw with
  | none => (conn, rooms, [Eff.send conn.handle (OutMsg.error "Invalid message format")])
  | some d =>
      if d.type = "join" then handleJoinRoom conn rooms d now
      else if d.type = "offer" ∨ d.type = "answer" ∨ d.type = "ice-candidate" then
        handleSignalingMessage conn rooms d
      else if d.type = "leave" then handleLeaveRoom conn rooms
      else (conn, rooms, [Eff.send conn.handle (OutMsg.error "Unknown message type")])

/-- A whole-server run: fold `wsOnMessage` over a sequence of frames, each
arriving on a connection in an arbitrary closure state. -/
def runServer (rooms : Rooms) (steps : List (ConnState × Option MsgData × Nat)) :
    Rooms :=
  match steps with
  | [] => rooms
  | (c, raw, now) :: rest => runServer (wsOnMessage c rooms raw now).2.1 rest

/-- Registry well-formedness: room keys are unique and every room's
participant keys are unique — the invariant JS `Map`s provide for free and
the association-list embedding must carry. -/
def roomWF (room : Room) : Prop := (room.map Prod.fst).Nodup

def wellFormed (rooms : Rooms) : Prop :=
  (rooms.map Prod.fst).Nodup ∧ ∀ p ∈ rooms, roomWF p.2

instance roomWF_decidable (room : Room) : Decidable (roomWF room) := by
  unfold roomWF; infer_instance

instance wellFormed_decidable (rooms : Rooms) : Decidable (wellFormed rooms) := by
  unfold wellFormed; infer_instance

/-- The number of distinct participantIds currently registered in the room
named `r` (0 when the room does not exist). -/
def distinctIds (rooms : Rooms) (r : String) : Nat :=
  (((mapGet rooms r).getD []).map Prod.fst).dedup.length

/-- The roomSize figures carried by `joined` / `user-joined` / `user-left`
messages among a handler's effects. -/
def reportedSizes (effs : List Eff) : List Nat :=
  effs.filterMap (fun e =>
    match e with
    | Eff.send _ (OutMsg.joined _ _ n) => some n
    | Eff.send _ (OutMsg.userJoined _ n) => some n
    | Eff.send _ (OutMsg.userLeft _ n) => some n
    | _ => none)

/-! ## Client embedding (hooks/use-voice.ts and lib/voice-config.ts)

The call state machine's refs and state hooks become one record. Media
tracks carry an id and a `stopped` flag (`track.stop()` sets it). The
`RTCPeerConnection` is reduced to the pieces the hook reads and writes:
signaling state, remote/local descriptions, the remote candidates added so
far, and the sender track ids. Asynchronous WebRTC/getUserMedia operations
are shallowly embedded on their success path; `getUserMedia` failure is the
explicit `none` media argument. -/

/-- The reconnect-related constants of `VOICE_CONFIG`. -/
structure VoiceConfig where
  CONNECTION_TIMEOUT : Nat
  RECONNECT_ATTEMPTS : Nat
  RECONNECT_DELAY : Nat
  deriving DecidableEq

def VOICE_CONFIG : VoiceConfig :=
  { CONNECTION_TIMEOUT := 15000, RECONNECT_ATTEMPTS := 5, RECONNECT_DELAY := 2000 }

/-- A `MediaStreamTrack`: identity plus whether `stop()` has been called. -/
structure Track where
  trackId : Nat
  stopped : Bool
  deriving DecidableEq

/-- The slice of an `RTCPeerConnection` the hook observes and mutates. -/
structure PeerConn where
  signalingState : String
  remoteDescription : Option String
  localDescription : Option String
  remoteCandidates : List String
  senderTracks : List Nat
  deriving DecidableEq

/-- A freshly constructed `RTCPeerConnection`. -/
def newPeerConnection : PeerConn :=
  { signalingState := "stable", remoteDescription := none,
    localDescription := none, remoteCandidates := [], senderTracks := [] }

/-- The `useVoice` hook's state and refs. -/
structure ClientState where
  roomId : String
  isRecording : Bool
  isConnecting : Bool
  isConnected : Bool
  error : Option String
  roomSize : Option Nat
  isInitiator : Bool
  localStream : Option (List Track)
  peerConnection : Option PeerConn
  reconnectAttempts : Nat
  deriving DecidableEq

/-- Messages the client hands to `sendSignalingMessage`. -/
inductive ClientOut where
  | answerMsg (answer : String) (roomId : String)
  | offerMsg (offer : String) (roomId : String)
  | iceMsg (candidate : String) (roomId : String)
  deriving DecidableEq

/-- `MediaStream.active`: some track has not ended. -/
def streamActive (ts : List Track) : Bool := ts.any (fun t => !t.stopped)

/-- `getLocalStream()`: reuse an active stream, otherwise discard the stale
one and request a new capture. `media` is what `getUserMedia` would yield;
`none` means the permission/device request rejects, and the catch block
leaves `localStreamRef` null. -/
def getLocalStream (s : ClientState) (media : Option (List Track)) :
    Option (ClientState × List Track) :=
  match s.localStream with
  | some ts =>
      if streamActive ts then some (s, ts)
      else
        match media with
        | some m => some ({ s with localStream := some m }, m)
        | none => none
  | none =>
      match media with
      | some m => some ({ s with localStream := some m }, m)
      | none => none

/-- `addTrack` for each local track that has no sender yet. -/
def addTracksIfAbsent (senders : List Nat) (tids : List Nat) : List Nat :=
  tids.foldl (fun acc tid => if tid ∈ acc then acc else acc ++ [tid]) senders

/-- The `joined` case of the client's `handleSignalingMessage`: record the
room size; size 1 makes this client the initiator, anything else the
responder. -/
def clientOnJoined (s : ClientState) (n : Nat) : ClientState :=
  { s with roomSize := some n, isInitiator := n == 1 }

/-- The `ice-candidate` case of the client's `handleSignalingMessage`: the
candidate is added only when a peer connection with a remote description
already exists; in every other case the handler falls through and the
candidate is discarded (no buffer exists in the source). -/
def clientOnIceCandidate (s : ClientState) (cand : String) : ClientState :=
  match s.peerConnection with
  | some pc =>
      if pc.remoteDescription.isSome then
        let pc' := { pc with remoteCandidates := pc.remoteCandidates ++ [cand] }
        { s with peerConnection := some pc' }
      else s
  | none => s

/-- The successful tail of the `offer` case: attach the local tracks to the
peer connection in hand, apply the offer as remote description, create and
send the answer (embedded as a function of the offer) and set the recording
flag. -/
def clientAnswerOffer (s1 : ClientState) (pc : PeerConn) (offer : String)
    (stream : List Track) : ClientState × List ClientOut :=
  let senders2 := addTracksIfAbsent pc.senderTracks (stream.map Track.trackId)
  let pc2 := { pc with senderTracks := senders2 }
  let pc3 := { pc2 with remoteDescription := some offer, signalingState := "have-remote-offer" }
  let answer := "answer-to:" ++ offer
  let pc4 := { pc3 with localDescription := some answer, signalingState := "stable" }
  ({ s1 with peerConnection := some pc4, isRecording := true },
   [ClientOut.answerMsg answer s1.roomId])

/-- The `offer` case of the client's `handleSignalingMessage` (first hook
variant): acquire the local stream, create the peer connection if absent,
then process the offer on `const peerConnection` — the value of the ref at
that point. In the have-local-offer collision case the source closes that
connection and rebinds the ref to a fresh one, but the `const` still names
the now-closed connection, so the following `addTrack`/`setRemoteDescription`
throw and the handler lands in the catch block: error recorded, the ref's
connection closed and dropped, no answer sent, recording flag untouched.
Otherwise the offer is answered on the connection in hand. When
`getUserMedia` rejects, the catch block likewise records the error and drops
the peer connection. -/
def clientOnOffer (s : ClientState) (offer : String)
    (media : Option (List Track)) : ClientState × List ClientOut :=
  match getLocalStream s media with
  | none =>
      ({ s with error := some "Error al procesar la oferta de voz",
                peerConnection := none }, [])
  | some (s1, stream) =>
      match s1.peerConnection with
      | some pc =>
          if pc.signalingState = "have-local-offer" then
            ({ s1 with error := some "Error al procesar la oferta de voz",
                       peerConnection := none }, [])
          else
            clientAnswerOffer s1 pc offer stream
      | none => clientAnswerOffer s1 newPeerConnection offer stream

/-- `stopRecording()`: stop every local track, drop the stream, clear the
recording flag and the error. The second component returns the tracks as
`track.stop()` left them. -/
def stopRecording (s : ClientState) : ClientState × List Track :=
  match s.localStream with
  | some ts =>
      ({ s with localStream := none, isRecording := false, error := none },
       ts.map (fun t => { t with stopped := true }))
  | none =>
      ({ s with isRecording := false, error := none }, [])

/-- `attemptReconnect()`: under the attempt cap, bump the counter and
schedule `connectSignaling` after `RECONNECT_DELAY * attempts`; at the cap,
give up with an error. The returned option is the scheduled delay. The two
booleans are the `isCleaningUpRef` / `isMountedRef` guards. -/
def attemptReconnect (isCleaningUp isMounted : Bool) (s : ClientState) :
    ClientState × Option Nat :=
  if isCleaningUp || !isMounted then (s, none)
  else if s.reconnectAttempts < VOICE_CONFIG.RECONNECT_ATTEMPTS then
    ({ s with reconnectAttempts := s.reconnectAttempts + 1 },
     some (VOICE_CONFIG.RECONNECT_DELAY * (s.reconnectAttempts + 1)))
  else
    let failMsg := "No se pudo conectar al servidor de voz después de varios intentos"
    ({ s with error := some failMsg }, none)

/-! ## Helper characterizations -/

theorem broadcastSends_nil (msg : OutMsg) (ex : Option String) :
    broadcastSends [] msg ex = [] := rfl

theorem broadcastSends_cons (uid : String) (user : Participant) (rest : Room)
    (msg : OutMsg) (ex : Option String) :
    broadcastSends ((uid, user) :: rest) msg ex =
      if (some uid != ex) && user.ws.isOpen then
        Eff.send user.ws.hid msg :: broadcastSends rest msg ex
      else broadcastSends rest msg ex := rfl

/-- The `forEach` loop is the filter of open, non-excluded participants,
each receiving exactly the broadcast message. -/
theorem broadcastSends_eq (room : Room) (msg : OutMsg) (ex : Option String) :
    broadcastSends room msg ex =
      (room.filter (fun p => (some p.1 != ex) && p.2.ws.isOpen)).map
        (fun p => Eff.send p.2.ws.hid msg) := by
  induction room with
  | nil => rfl
  | cons hd tl ih =>
      obtain ⟨uid, user⟩ := hd
      rw [broadcastSends_cons]
      by_cases h : ((some uid != ex) && user.ws.isOpen) = true
      · rw [if_pos h, List.filter_cons, if_pos h, List.map_cons, ih]
      · rw [if_neg h, List.filter_cons, if_neg h, ih]

theorem mem_broadcastSends (room : Room) (msg : OutMsg) (ex : Option String)
    (e : Eff) (he : e ∈ broadcastSends room msg ex) : ∃ h, e = Eff.send h msg := by
  rw [broadcastSends_eq] at he
  rcases List.mem_map.mp he with ⟨p, _, hpe⟩
  exact ⟨p.2.ws.hid, hpe.symm⟩

theorem broadcastToRoom_rooms_eq (rooms : Rooms) (roomId : String) (msg : OutMsg)
    (ex : Option String) : (broadcastToRoom rooms roomId msg ex).1 = rooms := by
  unfold broadcastToRoom
  cases mapGet rooms roomId <;> rfl

theorem mem_broadcastToRoom (rooms : Rooms) (roomId : String) (msg : OutMsg)
    (ex : Option String) (e : Eff) (he : e ∈ (broadcastToRoom rooms roomId msg ex).2) :
    ∃ h, e = Eff.send h msg := by
  unfold broadcastToRoom at he
  cases hmr : mapGet rooms roomId with
  | none => rw [hmr] at he; exact absurd he (List.not_mem_nil e)
  | some room => rw [hmr] at he; exact mem_broadcastSends room msg ex e he

/-- Broadcasting into a registry straight after setting the room it targets
reaches exactly that just-set room. -/
theorem broadcastToRoom_mapSet (rooms : Rooms) (r : String) (room' : Room)
    (msg : OutMsg) (ex : Option String) :
    broadcastToRoom (mapSet rooms r room') r msg ex =
      (mapSet rooms r room', broadcastSends room' msg ex) := by
  unfold broadcastToRoom
  rw [mapGet_mapSet_self]

/-- The signaling relay never mutates the registry, whichever branch runs. -/
theorem handleSignalingMessage_rooms_eq (conn : ConnState) (rooms : Rooms)
    (d : MsgData) : (handleSignalingMessage conn rooms d).2.1 = rooms := by
  unfold handleSignalingMessage
  by_cases h : (!(truthy d.roomId)) = true
  · rw [if_pos h]
  · rw [if_neg h]
    cases mapGet rooms (d.roomId.getD "") with
    | none => rfl
    | some room =>
        by_cases ht : truthy d.targetUserId
        · simp only [if_pos ht]
          cases mapGet room (d.targetUserId.getD "") with
          | none => rfl
          | some target =>
              by_cases ho : target.ws.isOpen = true
              · simp only [if_pos ho]
              · simp only [if_neg ho]
        · simp only [if_neg ht]
          exact broadcastToRoom_rooms_eq rooms _ _ _

/-! ## Claim theorems -/

/-- C4: `broadcastToRoom` is total (never throws), leaves the registry
untouched for any membership (including an absent room), and its sends are
exactly one copy of the message to each participant whose handle is open and
whose id differs from the excluded id — closed handles and the excluded
participant are skipped, nothing is removed. -/
theorem broadcast_never_excluded_or_closed (rooms : Rooms) (roomId : String)
    (msg : OutMsg) (ex : Option String) :
    (broadcastToRoom rooms roomId msg ex).1 = rooms ∧
    (broadcastToRoom rooms roomId msg ex).2 =
      (((mapGet rooms roomId).getD []).filter
        (fun p => (some p.1 != ex) && p.2.ws.isOpen)).map
        (fun p => Eff.send p.2.ws.hid msg) := by
  refine ⟨broadcastToRoom_rooms_eq rooms roomId msg ex, ?_⟩
  unfold broadcastToRoom
  cases hmr : mapGet rooms roomId with
  | none => simp
  | some room => simpa using broadcastSends_eq room msg ex

/-- C8: releasing push-to-talk stops every track of the local stream, drops
the stream reference, clears the recording flag, and leaves the peer
connection exactly as it was (neither closed nor replaced). -/
theorem stopRecording_frame (s : ClientState) :
    (stopRecording s).1.isRecording = false ∧
    (stopRecording s).1.localStream = none ∧
    (stopRecording s).2 =
      (s.localStream.getD []).map (fun t => { t with stopped := true }) ∧
    ((stopRecording s).2.all (fun t => t.stopped)) = true ∧
    (stopRecording s).1.peerConnection = s.peerConnection := by
  unfold stopRecording
  cases h : s.localStream with
  | none => simp [h]
  | some ts => simp [h, List.all_eq_true]

theorem clientAnswerOffer_spec (s1 : ClientState) (pc : PeerConn)
    (offer : String) (stream : List Track) :
    (clientAnswerOffer s1 pc offer stream).1.isRecording = true ∧
    (clientAnswerOffer s1 pc offer stream).1.localStream = s1.localStream ∧
    (clientAnswerOffer s1 pc offer stream).2 =
      [ClientOut.answerMsg ("answer-to:" ++ offer) s1.roomId] :=
  ⟨rfl, rfl, rfl⟩

/-- C9: an inbound `offer` whose processing succeeds — media granted and no
have-local-offer collision, which in the source throws on the already-closed
connection bound by `const peerConnection` — leaves the hook holding a local
microphone stream, sends an answer, and sets the `isRecording` flag, without
any push-to-talk press appearing anywhere in the handler. -/
theorem offer_sets_recording_flag (s : ClientState) (offer : String)
    (ts : List Track)
    (hnc : ∀ pc, s.peerConnection = some pc → pc.signalingState ≠ "have-local-offer") :
    (clientOnOffer s offer (some ts)).1.isRecording = true ∧
    ((clientOnOffer s offer (some ts)).1.localStream).isSome = true ∧
    ∃ a, (clientOnOffer s offer (some ts)).2 = [ClientOut.answerMsg a s.roomId] := by
  unfold clientOnOffer getLocalStream
  cases h : s.localStream with
  | none =>
      cases hpc : s.peerConnection with
      | none => simp [hpc, clientAnswerOffer_spec]
      | some pc =>
          simp [hpc, if_neg (hnc pc hpc), clientAnswerOffer_spec]
  | some ts0 =>
      by_cases ha : streamActive ts0 = true <;>
        cases hpc : s.peerConnection with
        | none => simp [ha, h, hpc, clientAnswerOffer_spec]
        | some pc => simp [ha, h, hpc, if_neg (hnc pc hpc), clientAnswerOffer_spec]

def offerClientEx : ClientState :=
  { roomId := "room9", isRecording := false, isConnecting := false,
    isConnected := true, error := none, roomSize := some 2,
    isInitiator := false, localStream := none,
    peerConnection := some newPeerConnection, reconnectAttempts := 0 }

theorem offer_sets_recording_flag_witness :
    (∀ pc, offerClientEx.peerConnection = some pc →
       pc.signalingState ≠ "have-local-offer") ∧
    ((clientOnOffer offerClientEx "sdp9" (some [⟨4, false⟩])).1.isRecording = true ∧
     ((clientOnOffer offerClientEx "sdp9" (some [⟨4, false⟩])).1.localStream).isSome = true ∧
     ∃ a, (clientOnOffer offerClientEx "sdp9" (some [⟨4, false⟩])).2 =
       [ClientOut.answerMsg a offerClientEx.roomId]) :=
  ⟨fun pc h => by rw [show pc = newPeerConnection from (Option.some.inj h).symm]; decide,
   offer_sets_recording_flag offerClientEx "sdp9" [⟨4, false⟩]
     (fun pc h => by
       rw [show pc = newPeerConnection from (Option.some.inj h).symm]; decide)⟩

/-- C7: the reconnect backoff delay (`RECONNECT_DELAY * attempts` with the
counter bumped before scheduling) is non-decreasing across two consecutive
attempts, and once the attempt counter has reached `RECONNECT_ATTEMPTS` no
further reconnect is scheduled. -/
theorem reconnect_backoff_monotone_capped (s : ClientState) :
    (∀ x y, (attemptReconnect false true s).2 = some x →
       (attemptReconnect false true (attemptReconnect false true s).1).2 = some y →
       x ≤ y) ∧
    (VOICE_CONFIG.RECONNECT_ATTEMPTS ≤ s.reconnectAttempts →
       (attemptReconnect false true s).2 = none ∧
       (attemptReconnect false true (attemptReconnect false true s).1).2 = none) := by
  unfold attemptReconnect VOICE_CONFIG
  by_cases h : s.reconnectAttempts < 5
  · by_cases h2 : s.reconnectAttempts + 1 < 5
    · constructor
      · intro x y hx hy
        simp only [if_pos h] at hx
        simp [if_pos h, h2] at hx hy ⊢
        omega
      · intro hcap
        simp at hcap
        omega
    · constructor
      · intro x y hx hy
        simp [h, h2] at hx hy
      · intro hcap
        simp at hcap
        omega
  · constructor
    · intro x y hx hy
      simp [h] at hx
    · intro _
      simp [h]

/-- C1 (code evaluated at the failing input): with a peer connection present
but no remote description yet, an incoming ICE candidate leaves the client
state completely unchanged — there is no buffer — and after the subsequent
offer installs the remote description, the remote-candidate list is empty:
the earlier candidate was lost, not flushed. -/
def clientAwaitingOffer : ClientState :=
  { roomId := "room1", isRecording := false, isConnecting := false,
    isConnected := true, error := none, roomSize := some 2,
    isInitiator := false, localStream := none,
    peerConnection := some newPeerConnection, reconnectAttempts := 0 }

theorem early_ice_candidate_dropped :
    clientOnIceCandidate clientAwaitingOffer "cand1" = clientAwaitingOffer ∧
    ((clientOnOffer (clientOnIceCandidate clientAwaitingOffer "cand1")
        "offer-sdp" (some [⟨1, false⟩])).1.peerConnection.map
        PeerConn.remoteCandidates) = some [] := by
  constructor
  · rfl
  · rfl

theorem handleJoinRoom_sends (conn : ConnState) (rooms : Rooms) (d : MsgData)
    (now : Nat) : ∀ e ∈ (handleJoinRoom conn rooms d now).2.2, ∃ h m, e = Eff.send h m := by
  unfold handleJoinRoom
  by_cases hc : (!(truthy d.roomId && truthy d.userId)) = true
  · rw [if_pos hc]
    intro e he
    rcases List.mem_cons.mp he with h | h
    · exact ⟨conn.handle, _, h⟩
    · exact absurd h (List.not_mem_nil e)
  · rw [if_neg hc]
    intro e he
    rcases List.mem_cons.mp he with h | h
    · exact ⟨conn.handle, _, h⟩
    · rcases mem_broadcastToRoom _ _ _ _ e h with ⟨hh, hee⟩
      exact ⟨hh, _, hee⟩

theorem handleSignalingMessage_sends (conn : ConnState) (rooms : Rooms)
    (d : MsgData) : ∀ e ∈ (handleSignalingMessage conn rooms d).2.2,
      ∃ h m, e = Eff.send h m := by
  unfold handleSignalingMessage
  by_cases hc : (!(truthy d.roomId)) = true
  · rw [if_pos hc]
    intro e he
    rcases List.mem_cons.mp he with h | h
    · exact ⟨conn.handle, _, h⟩
    · exact absurd h (List.not_mem_nil e)
  · rw [if_neg hc]
    cases hmr : mapGet rooms (d.roomId.getD "") with
    | none =>
        intro e he
        rcases List.mem_cons.mp he with h | h
        · exact ⟨conn.handle, _, h⟩
        · exact absurd h (List.not_mem_nil e)
    | some room =>
        by_cases ht : truthy d.targetUserId = true
        · simp only [if_pos ht]
          cases mapGet room (d.targetUserId.getD "") with
          | none => intro e he; exact absurd he (List.not_mem_nil e)
          | some target =>
              by_cases ho : target.ws.isOpen = true
              · simp only [if_pos ho]
                intro e he
                rcases List.mem_cons.mp he with h | h
                · exact ⟨target.ws.hid, _, h⟩
                · exact absurd h (List.not_mem_nil e)
              · simp only [if_neg ho]
                intro e he
                exact absurd he (List.not_mem_nil e)
        · simp only [if_neg ht]
          intro e he
          rcases mem_broadcastToRoom _ _ _ _ e he with ⟨hh, hee⟩
          exact ⟨hh, _, hee⟩

theorem handleLeaveRoom_sends (conn : ConnState) (rooms : Rooms) :
    ∀ e ∈ (handleLeaveRoom conn rooms).2.2, ∃ h m, e = Eff.send h m := by
  unfold handleLeaveRoom
  by_cases hc : (truthy conn.currentRoom && truthy conn.userId) = true
  · rw [if_pos hc]
    cases mapGet rooms (conn.currentRoom.getD "") with
    | none => intro e he; exact absurd he (List.not_mem_nil e)
    | some room =>
        intro e he
        unfold leaveFromRoom at he
        rcases mem_broadcastToRoom _ _ _ _ e he with ⟨hh, hee⟩
        exact ⟨hh, _, hee⟩
  · rw [if_neg hc]
    intro e he
    exact absurd he (List.not_mem_nil e)

/-- Every effect a message handler ever produces is a `ws.send`; no handler
closes a connection. -/
theorem wsOnMessage_sends (conn : ConnState) (rooms : Rooms) (raw : Option MsgData)
    (now : Nat) : ∀ e ∈ (wsOnMessage conn rooms raw now).2.2, ∃ h m, e = Eff.send h m := by
  cases raw with
  | none =>
      intro e he
      rcases List.mem_cons.mp he with h | h
      · exact ⟨conn.handle, _, h⟩
      · exact absurd h (List.not_mem_nil e)
  | some d =>
      show ∀ e ∈ (if d.type = "join" then handleJoinRoom conn rooms d now
        else if d.type = "offer" ∨ d.type = "answer" ∨ d.type = "ice-candidate" then
          handleSignalingMessage conn rooms d
        else if d.type = "leave" then handleLeaveRoom conn rooms
        else (conn, rooms,
          [Eff.send conn.handle (OutMsg.error "Unknown message type")])).2.2,
        ∃ h m, e = Eff.send h m
      by_cases h1 : d.type = "join"
      · rw [if_pos h1]
        exact handleJoinRoom_sends conn rooms d now
      · rw [if_neg h1]
        by_cases h2 : d.type = "offer" ∨ d.type = "answer" ∨ d.type = "ice-candidate"
        · rw [if_pos h2]
          exact handleSignalingMessage_sends conn rooms d
        · rw [if_neg h2]
          by_cases h3 : d.type = "leave"
          · rw [if_pos h3]
            exact handleLeaveRoom_sends conn rooms
          · rw [if_neg h3]
            intro e he
            rcases List.mem_cons.mp he with h | h
            · exact ⟨conn.handle, _, h⟩
            · exact absurd h (List.not_mem_nil e)

/-- C2 counterexample: the registry holds room `"r"` with open participant
`"A"`; a connection that has never joined (`currentRoom`/`userId` still
null) sends an `offer` naming `"r"`. The router forwards it to `"A"`
(stamped `fromUserId: null`) and sends the sender no error — contradicting
the claim that unjoined connections only get `join` accepted. -/
def relayRoomsEx : Rooms := [("r", [("A", ⟨⟨1, true⟩, "A", 0⟩)])]

def relayOfferEx : MsgData :=
  { type := "offer", roomId := some "r", userId := none,
    targetUserId := none, payload := some "sdp" }

def relayConnEx : ConnState := { handle := 7, currentRoom := none, userId := none }

theorem unjoined_offer_forwarded :
    (wsOnMessage relayConnEx relayRoomsEx (some relayOfferEx) 0).2.2 =
      [Eff.send 1 (OutMsg.forward relayOfferEx none)] ∧
    relayConnEx.handle = 7 ∧
    ∀ m : String, Eff.send 7 (OutMsg.error m) ∉
      (wsOnMessage relayConnEx relayRoomsEx (some relayOfferEx) 0).2.2 := by
  have h1 : (wsOnMessage relayConnEx relayRoomsEx (some relayOfferEx) 0).2.2 =
      [Eff.send 1 (OutMsg.forward relayOfferEx none)] := by decide
  refine ⟨h1, rfl, ?_⟩
  intro m hm
  rw [h1] at hm
  rcases List.mem_cons.mp hm with h | h
  · simp at h
  · exact absurd h (List.not_mem_nil _)

/-- C2 amended: the router never gates offer/answer/ice-candidate on join
state. From an unjoined connection such a message gets an `error` reply
exactly when `roomId` is missing/empty or names no existing room; when the
room exists, the message is relayed stamped `fromUserId: null` — without a
truthy `targetUserId` it is broadcast to every open participant of the room,
and with a truthy `targetUserId` it is delivered only to that participant
and only if it is present with an open handle (otherwise nothing is sent).
In no case does the unjoined sender of a message naming an existing room
receive an error. -/
theorem unjoined_signaling_not_gated (conn : ConnState) (rooms : Rooms)
    (d : MsgData) (now : Nat) (hun : conn.userId = none)
    (hty : d.type = "offer" ∨ d.type = "answer" ∨ d.type = "ice-candidate") :
    (truthy d.roomId = false →
       wsOnMessage conn rooms (some d) now =
         (conn, rooms, [Eff.send conn.handle (OutMsg.error "Room ID required")])) ∧
    (truthy d.roomId = true → mapGet rooms (d.roomId.getD "") = none →
       wsOnMessage conn rooms (some d) now =
         (conn, rooms, [Eff.send conn.handle (OutMsg.error "Room not found")])) ∧
    (∀ room, truthy d.roomId = true → mapGet rooms (d.roomId.getD "") = some room →
       truthy d.targetUserId = false →
       wsOnMessage conn rooms (some d) now =
         (conn, rooms,
          (room.filter (fun p => p.2.ws.isOpen)).map
            (fun p => Eff.send p.2.ws.hid (OutMsg.forward d none)))) ∧
    (∀ room target, truthy d.roomId = true →
       mapGet rooms (d.roomId.getD "") = some room →
       truthy d.targetUserId = true →
       mapGet room (d.targetUserId.getD "") = some target →
       wsOnMessage conn rooms (some d) now =
         (conn, rooms,
          if target.ws.isOpen then
            [Eff.send target.ws.hid (OutMsg.forward d none)]
          else [])) ∧
    (∀ room, truthy d.roomId = true → mapGet rooms (d.roomId.getD "") = some room →
       truthy d.targetUserId = true →
       mapGet room (d.targetUserId.getD "") = none →
       wsOnMessage conn rooms (some d) now = (conn, rooms, [])) := by
  have hdisp : wsOnMessage conn rooms (some d) now = handleSignalingMessage conn rooms d := by
    show (if d.type = "join" then handleJoinRoom conn rooms d now
      else if d.type = "offer" ∨ d.type = "answer" ∨ d.type = "ice-candidate" then
        handleSignalingMessage conn rooms d
      else if d.type = "leave" then handleLeaveRoom conn rooms
      else (conn, rooms, [Eff.send conn.handle (OutMsg.error "Unknown message type")])) =
      handleSignalingMessage conn rooms d
    rcases hty with h | h | h <;>
      · rw [if_neg (by rw [h]; decide), if_pos (by rw [h]; decide)]
  refine ⟨?_, ?_, ?_, ?_, ?_⟩
  · intro hr
    rw [hdisp]
    unfold handleSignalingMessage
    rw [if_pos (by rw [hr]; rfl)]
  · intro hr hmr
    rw [hdisp]
    unfold handleSignalingMessage
    rw [if_neg (by rw [hr]; decide), hmr]
  · intro room hr hmr htgt
    rw [hdisp]
    unfold handleSignalingMessage
    rw [if_neg (by rw [hr]; decide), hmr]
    simp only [htgt]
    rw [if_neg (by decide), hun]
    unfold broadcastToRoom
    rw [hmr]
    show (conn, rooms, broadcastSends room (OutMsg.forward d none) none) =
      (conn, rooms,
       (room.filter (fun p => p.2.ws.isOpen)).map
         (fun p => Eff.send p.2.ws.hid (OutMsg.forward d none)))
    rw [broadcastSends_eq]
    rfl
  · intro room target hr hmr htgt htar
    rw [hdisp]
    by_cases ho : target.ws.isOpen = true
    · rw [if_pos ho]
      unfold handleSignalingMessage
      rw [if_neg (by rw [hr]; decide), hmr]
      simp only [if_pos htgt]
      rw [htar, hun]
      show (if target.ws.isOpen = true then
          (conn, rooms, [Eff.send target.ws.hid (OutMsg.forward d none)])
        else (conn, rooms, [])) =
        (conn, rooms, [Eff.send target.ws.hid (OutMsg.forward d none)])
      rw [if_pos ho]
    · rw [if_neg ho]
      unfold handleSignalingMessage
      rw [if_neg (by rw [hr]; decide), hmr]
      simp only [if_pos htgt]
      rw [htar, hun]
      show (if target.ws.isOpen = true then
          (conn, rooms, [Eff.send target.ws.hid (OutMsg.forward d none)])
        else (conn, rooms, [])) = (conn, rooms, ([] : List Eff))
      rw [if_neg ho]
  · intro room hr hmr htgt htar
    rw [hdisp]
    unfold handleSignalingMessage
    rw [if_neg (by rw [hr]; decide), hmr]
    simp only [if_pos htgt]
    rw [htar]

def relayTargetOfferEx : MsgData :=
  { type := "offer", roomId := some "r", userId := none,
    targetUserId := some "A", payload := some "sdp" }

theorem unjoined_signaling_not_gated_witness :
    relayConnEx.userId = none ∧
    wsOnMessage relayConnEx relayRoomsEx (some relayOfferEx) 0 =
      (relayConnEx, relayRoomsEx, [Eff.send 1 (OutMsg.forward relayOfferEx none)]) ∧
    wsOnMessage relayConnEx relayRoomsEx (some relayTargetOfferEx) 0 =
      (relayConnEx, relayRoomsEx,
       [Eff.send 1 (OutMsg.forward relayTargetOfferEx none)]) :=
  ⟨rfl,
   by
    have h := (unjoined_signaling_not_gated relayConnEx relayRoomsEx relayOfferEx 0
      rfl (Or.inl rfl)).2.2.1 [("A", ⟨⟨1, true⟩, "A", 0⟩)] rfl (by decide) rfl
    exact h.trans (by decide),
   by
    have h := (unjoined_signaling_not_gated relayConnEx relayRoomsEx
      relayTargetOfferEx 0 rfl (Or.inl rfl)).2.2.2.1
      [("A", ⟨⟨1, true⟩, "A", 0⟩)] ⟨⟨1, true⟩, "A", 0⟩ rfl (by decide) rfl (by decide)
    exact h.trans (by decide)⟩

/-- C6: protocol errors — an unparseable frame, an unknown message type, and
a `join` missing roomId or userId — each produce exactly one `error` reply
to the offending connection, leave the registry untouched, and never close
the transport (no handler emits a close effect for any input). -/
theorem protocol_error_replies (conn : ConnState) (rooms : Rooms) :
    (∀ now, wsOnMessage conn rooms none now =
       (conn, rooms, [Eff.send conn.handle (OutMsg.error "Invalid message format")])) ∧
    (∀ d now, d.type ≠ "join" → d.type ≠ "offer" → d.type ≠ "answer" →
       d.type ≠ "ice-candidate" → d.type ≠ "leave" →
       wsOnMessage conn rooms (some d) now =
         (conn, rooms, [Eff.send conn.handle (OutMsg.error "Unknown message type")])) ∧
    (∀ d now, d.type = "join" → (truthy d.roomId && truthy d.userId) = false →
       wsOnMessage conn rooms (some d) now =
         (conn, rooms, [Eff.send conn.handle (OutMsg.error "Room ID and User ID required")])) ∧
    (∀ raw now n, Eff.close n ∉ (wsOnMessage conn rooms raw now).2.2) := by
  refine ⟨fun now => rfl, ?_, ?_, ?_⟩
  · intro d now h1 h2 h3 h4 h5
    show (if d.type = "join" then handleJoinRoom conn rooms d now
      else if d.type = "offer" ∨ d.type = "answer" ∨ d.type = "ice-candidate" then
        handleSignalingMessage conn rooms d
      else if d.type = "leave" then handleLeaveRoom conn rooms
      else (conn, rooms, [Eff.send conn.handle (OutMsg.error "Unknown message type")])) =
      (conn, rooms, [Eff.send conn.handle (OutMsg.error "Unknown message type")])
    rw [if_neg h1, if_neg (by simp [h2, h3, h4]), if_neg h5]
  · intro d now h1 h2
    show (if d.type = "join" then handleJoinRoom conn rooms d now
      else if d.type = "offer" ∨ d.type = "answer" ∨ d.type = "ice-candidate" then
        handleSignalingMessage conn rooms d
      else if d.type = "leave" then handleLeaveRoom conn rooms
      else (conn, rooms, [Eff.send conn.handle (OutMsg.error "Unknown message type")])) =
      (conn, rooms, [Eff.send conn.handle (OutMsg.error "Room ID and User ID required")])
    rw [if_pos h1]
    unfold handleJoinRoom
    rw [if_pos (by rw [h2]; rfl)]
  · intro raw now n hmem
    rcases wsOnMessage_sends conn rooms raw now _ hmem with ⟨h, m, he⟩
    exact Eff.noConfusion he

theorem protocol_error_replies_witness :
    wsOnMessage relayConnEx relayRoomsEx none 3 =
      (relayConnEx, relayRoomsEx,
       [Eff.send relayConnEx.handle (OutMsg.error "Invalid message format")]) ∧
    wsOnMessage relayConnEx relayRoomsEx
        (some { type := "ping", roomId := none, userId := none,
                targetUserId := none, payload := none }) 3 =
      (relayConnEx, relayRoomsEx,
       [Eff.send relayConnEx.handle (OutMsg.error "Unknown message type")]) ∧
    wsOnMessage relayConnEx relayRoomsEx
        (some { type := "join", roomId := some "r", userId := none,
                targetUserId := none, payload := none }) 3 =
      (relayConnEx, relayRoomsEx,
       [Eff.send relayConnEx.handle (OutMsg.error "Room ID and User ID required")]) :=
  ⟨(protocol_error_replies relayConnEx relayRoomsEx).1 3,
   (protocol_error_replies relayConnEx relayRoomsEx).2.1 _ 3
     (by decide) (by decide) (by decide) (by decide) (by decide),
   (protocol_error_replies relayConnEx relayRoomsEx).2.2.1 _ 3 rfl (by decide)⟩

/-- C10: a signaling message carrying a truthy `targetUserId` into an
existing room is delivered — stamped with `fromUserId` — to that single
participant alone, and only when its handle is open; when the target is
absent or its handle closed, nothing at all is sent (no reply to the
sender), and the registry is unchanged in every case. -/
theorem targeted_signaling_delivery (conn : ConnState) (rooms : Rooms)
    (d : MsgData) (room : Room) (hr : truthy d.roomId = true)
    (hroom : mapGet rooms (d.roomId.getD "") = some room)
    (htgt : truthy d.targetUserId = true) :
    (handleSignalingMessage conn rooms d).2.1 = rooms ∧
    (∀ target, mapGet room (d.targetUserId.getD "") = some target →
       (handleSignalingMessage conn rooms d).2.2 =
         if target.ws.isOpen then
           [Eff.send target.ws.hid (OutMsg.forward d conn.userId)]
         else []) ∧
    (mapGet room (d.targetUserId.getD "") = none →
       (handleSignalingMessage conn rooms d).2.2 = []) := by
  refine ⟨handleSignalingMessage_rooms_eq conn rooms d, ?_, ?_⟩
  · intro target htar
    by_cases ho : target.ws.isOpen = true
    · rw [if_pos ho]
      unfold handleSignalingMessage
      rw [if_neg (by rw [hr]; decide), hroom]
      simp only [if_pos htgt]
      rw [htar]
      show (if target.ws.isOpen = true then
          (conn, rooms, [Eff.send target.ws.hid (OutMsg.forward d conn.userId)])
        else (conn, rooms, [])).2.2 =
        [Eff.send target.ws.hid (OutMsg.forward d conn.userId)]
      rw [if_pos ho]
    · rw [if_neg ho]
      unfold handleSignalingMessage
      rw [if_neg (by rw [hr]; decide), hroom]
      simp only [if_pos htgt]
      rw [htar]
      show (if target.ws.isOpen = true then
          (conn, rooms, [Eff.send target.ws.hid (OutMsg.forward d conn.userId)])
        else (conn, rooms, [])).2.2 = ([] : List Eff)
      rw [if_neg ho]
  · intro htar
    unfold handleSignalingMessage
    rw [if_neg (by rw [hr]; decide), hroom]
    simp only [if_pos htgt]
    rw [htar]

def targetRoomEx : Room :=
  [("A", ⟨⟨1, true⟩, "A", 0⟩), ("B", ⟨⟨2, true⟩, "B", 0⟩), ("C", ⟨⟨3, false⟩, "C", 0⟩)]

def targetOfferEx : MsgData :=
  { type := "offer", roomId := some "r", userId := none,
    targetUserId := some "B", payload := some "sdp" }

theorem targeted_signaling_delivery_witness :
    truthy targetOfferEx.roomId = true ∧
    (handleSignalingMessage ⟨1, some "r", some "A"⟩ [("r", targetRoomEx)]
        targetOfferEx).2.1 = [("r", targetRoomEx)] ∧
    (handleSignalingMessage ⟨1, some "r", some "A"⟩ [("r", targetRoomEx)]
        targetOfferEx).2.2 =
      [Eff.send 2 (OutMsg.forward targetOfferEx (some "A"))] := by
  have h := targeted_signaling_delivery ⟨1, some "r", some "A"⟩ [("r", targetRoomEx)]
    targetOfferEx targetRoomEx rfl (by decide) rfl
  exact ⟨rfl, h.1, (h.2.1 ⟨⟨2, true⟩, "B", 0⟩ (by decide)).trans (by decide)⟩

/-! ## Well-formedness of the registry across handlers -/

theorem roomWF_of_mapGet {rooms : Rooms} {r : String} {room : Room}
    (hwf : wellFormed rooms) (h : mapGet rooms r = some room) : roomWF room :=
  hwf.2 (r, room) (mem_of_mapGet h)

theorem roomWF_getD (rooms : Rooms) (r : String) (hwf : wellFormed rooms) :
    roomWF ((mapGet rooms r).getD []) := by
  cases h : mapGet rooms r with
  | none => simp [roomWF]
  | some room => simpa using roomWF_of_mapGet hwf h

theorem wellFormed_mapSet {rooms : Rooms} {r : String} {room' : Room}
    (hwf : wellFormed rooms) (hr : roomWF room') : wellFormed (mapSet rooms r room') := by
  refine ⟨nodup_keys_mapSet hwf.1, fun p hp => ?_⟩
  rcases mem_of_mem_mapSet hp with h | h
  · exact hwf.2 p h
  · rw [h]
    exact hr

theorem wellFormed_mapDelete {rooms : Rooms} {r : String}
    (hwf : wellFormed rooms) : wellFormed (mapDelete rooms r) :=
  ⟨nodup_keys_mapDelete hwf.1, fun p hp => hwf.2 p (mem_of_mem_mapDelete hp)⟩

theorem wellFormed_ensureRoom {rooms : Rooms} (r : String)
    (hwf : wellFormed rooms) : wellFormed (ensureRoom rooms r) := by
  unfold ensureRoom
  by_cases h : (mapGet rooms r).isNone = true
  · rw [if_pos h]
    exact wellFormed_mapSet hwf (by simp [roomWF])
  · rw [if_neg h]
    exact hwf

theorem roomWF_joinedRoom (conn : ConnState) (rooms : Rooms) (r u : String)
    (now : Nat) (hwf : wellFormed rooms) : roomWF (joinedRoom conn rooms r u now) :=
  nodup_keys_mapSet (roomWF_getD (ensureRoom rooms r) r (wellFormed_ensureRoom r hwf))

theorem wellFormed_handleJoinRoom (conn : ConnState) (rooms : Rooms) (d : MsgData)
    (now : Nat) (hwf : wellFormed rooms) :
    wellFormed (handleJoinRoom conn rooms d now).2.1 := by
  unfold handleJoinRoom
  by_cases hc : (!(truthy d.roomId && truthy d.userId)) = true
  · rw [if_pos hc]
    exact hwf
  · rw [if_neg hc]
    show wellFormed (broadcastToRoom _ _ _ _).1
    rw [broadcastToRoom_rooms_eq]
    exact wellFormed_mapSet (wellFormed_ensureRoom _ hwf)
      (roomWF_joinedRoom conn rooms _ _ now hwf)

theorem wellFormed_handleSignalingMessage (conn : ConnState) (rooms : Rooms)
    (d : MsgData) (hwf : wellFormed rooms) :
    wellFormed (handleSignalingMessage conn rooms d).2.1 := by
  rw [handleSignalingMessage_rooms_eq]
  exact hwf

theorem wellFormed_handleLeaveRoom (conn : ConnState) (rooms : Rooms)
    (hwf : wellFormed rooms) : wellFormed (handleLeaveRoom conn rooms).2.1 := by
  unfold handleLeaveRoom
  by_cases hc : (truthy conn.currentRoom && truthy conn.userId) = true
  · rw [if_pos hc]
    cases hmr : mapGet rooms (conn.currentRoom.getD "") with
    | none => exact hwf
    | some room =>
        unfold leaveFromRoom
        simp only [broadcastToRoom_mapSet]
        have hset : wellFormed (mapSet rooms (conn.currentRoom.getD "")
            (mapDelete room (conn.userId.getD ""))) :=
          wellFormed_mapSet hwf (nodup_keys_mapDelete (roomWF_of_mapGet hwf hmr))
        by_cases hz : (mapDelete room (conn.userId.getD "")).length = 0
        · rw [if_pos hz]
          exact wellFormed_mapDelete hset
        · rw [if_neg hz]
          exact hset
  · rw [if_neg hc]
    exact hwf

theorem wellFormed_wsOnMessage (conn : ConnState) (rooms : Rooms)
    (raw : Option MsgData) (now : Nat) (hwf : wellFormed rooms) :
    wellFormed (wsOnMessage conn rooms raw now).2.1 := by
  cases raw with
  | none => exact hwf
  | some d =>
      show wellFormed (if d.type = "join" then handleJoinRoom conn rooms d now
        else if d.type = "offer" ∨ d.type = "answer" ∨ d.type = "ice-candidate" then
          handleSignalingMessage conn rooms d
        else if d.type = "leave" then handleLeaveRoom conn rooms
        else (conn, rooms,
          [Eff.send conn.handle (OutMsg.error "Unknown message type")])).2.1
      by_cases h1 : d.type = "join"
      · rw [if_pos h1]
        exact wellFormed_handleJoinRoom conn rooms d now hwf
      · rw [if_neg h1]
        by_cases h2 : d.type = "offer" ∨ d.type = "answer" ∨ d.type = "ice-candidate"
        · rw [if_pos h2]
          exact wellFormed_handleSignalingMessage conn rooms d hwf
        · rw [if_neg h2]
          by_cases h3 : d.type = "leave"
          · rw [if_pos h3]
            exact wellFormed_handleLeaveRoom conn rooms hwf
          · rw [if_neg h3]
            exact hwf

theorem wellFormed_runServer (steps : List (ConnState × Option MsgData × Nat)) :
    ∀ rooms, wellFormed rooms → wellFormed (runServer rooms steps) := by
  induction steps with
  | nil => intro rooms hwf; exact hwf
  | cons step rest ih =>
      intro rooms hwf
      obtain ⟨c, raw, now⟩ := step
      exact ih _ (wellFormed_wsOnMessage c rooms raw now hwf)

theorem distinctIds_of_mapGet {rooms : Rooms} {r : String} {room : Room}
    (hwf : roomWF room) (h : mapGet rooms r = some room) :
    distinctIds rooms r = room.length := by
  unfold distinctIds
  rw [h]
  show (room.map Prod.fst).dedup.length = room.length
  rw [List.dedup_eq_self.mpr hwf, List.length_map]

theorem distinctIds_of_mapGet_none {rooms : Rooms} {r : String}
    (h : mapGet rooms r = none) : distinctIds rooms r = 0 := by
  unfold distinctIds
  rw [h]
  rfl

/-- A valid join, written out: the connection records its room and user, the
registry gets the (lazily created) room with the participant set, and the
`joined` reply plus `user-joined` broadcast both carry the new room size. -/
theorem handleJoinRoom_valid_eq (conn : ConnState) (rooms : Rooms) (d : MsgData)
    (now : Nat) (hr : truthy d.roomId = true) (hu : truthy d.userId = true) :
    handleJoinRoom conn rooms d now =
      ({ conn with currentRoom := some (d.roomId.getD ""),
                   userId := some (d.userId.getD "") },
       mapSet (ensureRoom rooms (d.roomId.getD "")) (d.roomId.getD "")
         (joinedRoom conn rooms (d.roomId.getD "") (d.userId.getD "") now),
       Eff.send conn.handle
         (OutMsg.joined (d.roomId.getD "") (d.userId.getD "")
           (joinedRoom conn rooms (d.roomId.getD "") (d.userId.getD "") now).length) ::
         broadcastSends (joinedRoom conn rooms (d.roomId.getD "") (d.userId.getD "") now)
           (OutMsg.userJoined (d.userId.getD "")
             (joinedRoom conn rooms (d.roomId.getD "") (d.userId.getD "") now).length)
           (some (d.userId.getD ""))) := by
  unfold handleJoinRoom
  rw [if_neg (by rw [hr, hu]; decide)]
  simp only [broadcastToRoom_mapSet]

/-- A joined connection's leave against an existing room, written out. -/
theorem handleLeaveRoom_some_eq (conn : ConnState) (rooms : Rooms) (room : Room)
    (hc : (truthy conn.currentRoom && truthy conn.userId) = true)
    (hmr : mapGet rooms (conn.currentRoom.getD "") = some room) :
    handleLeaveRoom conn rooms =
      (conn,
       (if (mapDelete room (conn.userId.getD "")).length = 0 then
          mapDelete (mapSet rooms (conn.currentRoom.getD "")
            (mapDelete room (conn.userId.getD ""))) (conn.currentRoom.getD "")
        else
          mapSet rooms (conn.currentRoom.getD "")
            (mapDelete room (conn.userId.getD ""))),
       broadcastSends (mapDelete room (conn.userId.getD ""))
         (OutMsg.userLeft (conn.userId.getD "")
           (mapDelete room (conn.userId.getD "")).length)
         (some (conn.userId.getD ""))) := by
  unfold handleLeaveRoom
  rw [if_pos hc, hmr]
  unfold leaveFromRoom
  simp only [broadcastToRoom_mapSet]

theorem reportedSizes_join_effects (h0 : Nat) (r u : String) (k : Nat)
    (room : Room) (ex : Option String) :
    ∀ n ∈ reportedSizes (Eff.send h0 (OutMsg.joined r u k) ::
      broadcastSends room (OutMsg.userJoined u k) ex), n = k := by
  intro n hn
  unfold reportedSizes at hn
  rcases List.mem_filterMap.mp hn with ⟨e, he, hfe⟩
  rcases List.mem_cons.mp he with h | h
  · subst h
    exact (Option.some.inj hfe).symm
  · rcases mem_broadcastSends room _ ex e h with ⟨hh, he'⟩
    subst he'
    exact (Option.some.inj hfe).symm

theorem reportedSizes_left_effects (u : String) (k : Nat) (room : Room)
    (ex : Option String) :
    ∀ n ∈ reportedSizes (broadcastSends room (OutMsg.userLeft u k) ex), n = k := by
  intro n hn
  unfold reportedSizes at hn
  rcases List.mem_filterMap.mp hn with ⟨e, he, hfe⟩
  rcases mem_broadcastSends room _ ex e he with ⟨hh, he'⟩
  subst he'
  exact (Option.some.inj hfe).symm

/-- C3: across any sequence of registry operations the well-formedness
invariant (unique participantIds per room) is preserved; every room size a
join reports (in `joined` and in the `user-joined` broadcast) equals the
number of distinct participantIds registered in that room afterwards; a join
whose participantId is already present replaces the handle without changing
the distinct count; and every size a leave broadcasts in `user-left` equals
the distinct count of the room afterwards. -/
theorem registry_size_reports (conn : ConnState) (rooms : Rooms) :
    (∀ steps rooms0, wellFormed rooms0 → wellFormed (runServer rooms0 steps)) ∧
    (∀ d now, wellFormed rooms → truthy d.roomId = true → truthy d.userId = true →
       (∀ n ∈ reportedSizes (handleJoinRoom conn rooms d now).2.2,
          n = distinctIds (handleJoinRoom conn rooms d now).2.1 (d.roomId.getD "")) ∧
       ((d.userId.getD "") ∈ ((mapGet rooms (d.roomId.getD "")).getD []).map Prod.fst →
          distinctIds (handleJoinRoom conn rooms d now).2.1 (d.roomId.getD "") =
            distinctIds rooms (d.roomId.getD ""))) ∧
    (wellFormed rooms →
       ∀ n ∈ reportedSizes (handleLeaveRoom conn rooms).2.2,
         n = distinctIds (handleLeaveRoom conn rooms).2.1 (conn.currentRoom.getD "")) := by
  refine ⟨fun steps rooms0 h => wellFormed_runServer steps rooms0 h, ?_, ?_⟩
  · intro d now hwf hr hu
    constructor
    · intro n hn
      rw [handleJoinRoom_valid_eq conn rooms d now hr hu] at hn ⊢
      dsimp only at hn ⊢
      have hk := reportedSizes_join_effects conn.handle _ _ _ _ _ n hn
      rw [hk, distinctIds_of_mapGet (roomWF_joinedRoom conn rooms _ _ now hwf)
        (mapGet_mapSet_self _ _ _)]
    · intro hmem
      cases hmr : mapGet rooms (d.roomId.getD "") with
      | none =>
          rw [hmr] at hmem
          simp at hmem
      | some room0 =>
          rw [hmr] at hmem
          rw [handleJoinRoom_valid_eq conn rooms d now hr hu]
          dsimp only
          have hens : ensureRoom rooms (d.roomId.getD "") = rooms := by
            unfold ensureRoom
            rw [hmr]
            rfl
          have hR : joinedRoom conn rooms (d.roomId.getD "") (d.userId.getD "") now =
              mapSet room0 (d.userId.getD "")
                ⟨⟨conn.handle, true⟩, d.userId.getD "", now⟩ := by
            unfold joinedRoom
            rw [hens, hmr]
            rfl
          rw [hens, distinctIds_of_mapGet
            (by rw [hR]; exact nodup_keys_mapSet (roomWF_of_mapGet hwf hmr))
            (mapGet_mapSet_self _ _ _),
            distinctIds_of_mapGet (roomWF_of_mapGet hwf hmr) hmr, hR,
            mapSet_length_mem _ (by simpa using hmem)]
  · intro hwf n hn
    by_cases hc : (truthy conn.currentRoom && truthy conn.userId) = true
    · cases hmr : mapGet rooms (conn.currentRoom.getD "") with
      | none =>
          have hnil : (handleLeaveRoom conn rooms).2.2 = [] := by
            unfold handleLeaveRoom
            rw [if_pos hc, hmr]
          rw [hnil] at hn
          exact absurd hn (by unfold reportedSizes; simp)
      | some room =>
          rw [handleLeaveRoom_some_eq conn rooms room hc hmr] at hn ⊢
          dsimp only at hn ⊢
          have hk := reportedSizes_left_effects _ _ _ _ n hn
          rw [hk]
          by_cases hz : (mapDelete room (conn.userId.getD "")).length = 0
          · rw [if_pos hz,
              distinctIds_of_mapGet_none (mapGet_mapDelete_self (nodup_keys_mapSet hwf.1))]
            exact hz
          · rw [if_neg hz,
              distinctIds_of_mapGet (nodup_keys_mapDelete (roomWF_of_mapGet hwf hmr))
                (mapGet_mapSet_self _ _ _)]
    · have hnil : (handleLeaveRoom conn rooms).2.2 = [] := by
        unfold handleLeaveRoom
        rw [if_neg hc]
      rw [hnil] at hn
      exact absurd hn (by unfold reportedSizes; simp)

def sizeRoomsEx : Rooms := [("r", [("A", ⟨⟨1, true⟩, "A", 0⟩)])]

def sizeConnEx : ConnState := ⟨5, some "r", some "A"⟩

def sizeJoinEx : MsgData :=
  { type := "join", roomId := some "r", userId := some "B",
    targetUserId := none, payload := none }

theorem registry_size_reports_witness :
    wellFormed sizeRoomsEx ∧
    (∀ n ∈ reportedSizes (handleJoinRoom sizeConnEx sizeRoomsEx sizeJoinEx 0).2.2,
       n = distinctIds (handleJoinRoom sizeConnEx sizeRoomsEx sizeJoinEx 0).2.1 "r") ∧
    (∀ n ∈ reportedSizes (handleLeaveRoom sizeConnEx sizeRoomsEx).2.2,
       n = distinctIds (handleLeaveRoom sizeConnEx sizeRoomsEx).2.1 "r") :=
  ⟨by decide,
   ((registry_size_reports sizeConnEx sizeRoomsEx).2.1 sizeJoinEx 0
     (by decide) rfl rfl).1,
   (registry_size_reports sizeConnEx sizeRoomsEx).2.2 (by decide)⟩

/-- C5: joining a fresh room makes the server report roomSize 1 and the
client's `joined` handler set the initiator role; joining a room already
occupied by some other participantId makes the reported roomSize exceed 1
and the client take the responder role. -/
theorem joined_size_determines_role (conn : ConnState) (rooms : Rooms)
    (d : MsgData) (cs : ClientState) (now : Nat)
    (hr : truthy d.roomId = true) (hu : truthy d.userId = true) :
    (mapGet rooms (d.roomId.getD "") = none →
       (handleJoinRoom conn rooms d now).2.2 =
         [Eff.send conn.handle
           (OutMsg.joined (d.roomId.getD "") (d.userId.getD "") 1)] ∧
       (clientOnJoined cs 1).isInitiator = true) ∧
    (∀ room v q, mapGet rooms (d.roomId.getD "") = some room → (v, q) ∈ room →
       v ≠ d.userId.getD "" →
       ∃ n, 1 < n ∧
         (handleJoinRoom conn rooms d now).2.2.head? =
           some (Eff.send conn.handle
             (OutMsg.joined (d.roomId.getD "") (d.userId.getD "") n)) ∧
         (clientOnJoined cs n).isInitiator = false) := by
  constructor
  · intro hmr
    rw [handleJoinRoom_valid_eq conn rooms d now hr hu]
    dsimp only
    have hR : joinedRoom conn rooms (d.roomId.getD "") (d.userId.getD "") now =
        [(d.userId.getD "", ⟨⟨conn.handle, true⟩, d.userId.getD "", now⟩)] := by
      simp [joinedRoom, ensureRoom, hmr, mapGet_mapSet_self, mapSet_nil]
    rw [hR]
    refine ⟨?_, rfl⟩
    rw [broadcastSends_cons, if_neg (by simp), broadcastSends_nil]
    rfl
  · intro room v q hmr hv hne
    rw [handleJoinRoom_valid_eq conn rooms d now hr hu]
    dsimp only
    have hens : ensureRoom rooms (d.roomId.getD "") = rooms := by
      unfold ensureRoom
      rw [hmr]
      rfl
    have hR : joinedRoom conn rooms (d.roomId.getD "") (d.userId.getD "") now =
        mapSet room (d.userId.getD "")
          ⟨⟨conn.handle, true⟩, d.userId.getD "", now⟩ := by
      unfold joinedRoom
      rw [hens, hmr]
      rfl
    rw [hR]
    have hu' : (d.userId.getD "") ∈
        (mapSet room (d.userId.getD "")
          ⟨⟨conn.handle, true⟩, d.userId.getD "", now⟩).map Prod.fst :=
      List.mem_map.mpr ⟨_, mem_mapSet_self room _ _, rfl⟩
    have hv' : v ∈
        (mapSet room (d.userId.getD "")
          ⟨⟨conn.handle, true⟩, d.userId.getD "", now⟩).map Prod.fst :=
      List.mem_map.mpr ⟨(v, q), mem_mapSet_of_ne hv hne, rfl⟩
    have hlen := two_mem_le_length hv' hu' hne
    rw [List.length_map] at hlen
    refine ⟨(mapSet room (d.userId.getD "")
      ⟨⟨conn.handle, true⟩, d.userId.getD "", now⟩).length, by omega, rfl, ?_⟩
    unfold clientOnJoined
    exact beq_eq_false_iff_ne.mpr (by omega)

def roleRoomsEx : Rooms := [("busy", [("A", ⟨⟨1, true⟩, "A", 0⟩)])]

def roleConnEx : ConnState := ⟨9, none, none⟩

def roleJoinFreshEx : MsgData :=
  { type := "join", roomId := some "fresh", userId := some "B",
    targetUserId := none, payload := none }

def roleJoinBusyEx : MsgData :=
  { type := "join", roomId := some "busy", userId := some "B",
    targetUserId := none, payload := none }

def roleClientEx : ClientState :=
  { roomId := "fresh", isRecording := false, isConnecting := false,
    isConnected := true, error := none, roomSize := none,
    isInitiator := false, localStream := none, peerConnection := none,
    reconnectAttempts := 0 }

theorem joined_size_determines_role_witness :
    ((handleJoinRoom roleConnEx roleRoomsEx roleJoinFreshEx 0).2.2 =
       [Eff.send 9 (OutMsg.joined "fresh" "B" 1)] ∧
     (clientOnJoined roleClientEx 1).isInitiator = true) ∧
    (∃ n, 1 < n ∧
       (handleJoinRoom roleConnEx roleRoomsEx roleJoinBusyEx 0).2.2.head? =
         some (Eff.send 9 (OutMsg.joined "busy" "B" n)) ∧
       (clientOnJoined roleClientEx n).isInitiator = false) :=
  ⟨(joined_size_determines_role roleConnEx roleRoomsEx roleJoinFreshEx
      roleClientEx 0 rfl rfl).1 (by decide),
   (joined_size_determines_role roleConnEx roleRoomsEx roleJoinBusyEx
      roleClientEx 0 rfl rfl).2 [("A", ⟨⟨1, true⟩, "A", 0⟩)] "A"
      ⟨⟨1, true⟩, "A", 0⟩ (by decide) (by decide) (by decide)⟩

theorem reconnect_backoff_monotone_capped_witness :
    (2000 ≤ 4000) ∧
    ((attemptReconnect false true { roleClientEx with reconnectAttempts := 5 }).2 = none ∧
     (attemptReconnect false true
       (attemptReconnect false true
         { roleClientEx with reconnectAttempts := 5 }).1).2 = none) :=
  ⟨(reconnect_backoff_monotone_capped roleClientEx).1 2000 4000 (by decide) (by decide),
   (reconnect_backoff_monotone_capped
     { roleClientEx with reconnectAttempts := 5 }).2 (by decide)⟩

end Voice
